import Mathlib

/-!
Shallow embedding of `src/olmo_core/nn/conversion/state_mapping.py`: the
state-mapping templates (`StateMappingTemplate`), concrete mappings
(`StateMapping`) and the converter (`StateConverter`) that translates model
state dictionaries between formats.  Python exceptions are modelled with
`Except PyErr`, tensors as row-major flat data with an explicit shape, state
dictionaries as insertion-ordered association lists (Python `dict`).
-/

/-- The placeholders of `TemplatePlaceholder` (a `StrEnum` in the source). -/
inductive TemplatePlaceholder where
  | layer
  | expert
deriving DecidableEq

/-- The string value of a placeholder, as used inside key templates. -/
def TemplatePlaceholder.str : TemplatePlaceholder → String
  | .layer => "[layer]"
  | .expert => "[expert]"

/-- Fuel-driven scan of Python `str.replace`: replace all non-overlapping
occurrences of `pat` left to right (for non-empty `pat`); the fuel is an upper
bound on the number of characters still to scan, so the recursion is
structural and reduces definitionally. -/
def replaceFuel : Nat → List Char → List Char → List Char → List Char
  | 0, s, _, _ => s
  | fuel + 1, s, pat, rep =>
    match s with
    | [] => []
    | c :: rest =>
      if pat ≠ [] ∧ pat.isPrefixOf (c :: rest) then
        rep ++ replaceFuel fuel ((c :: rest).drop pat.length) pat rep
      else
        c :: replaceFuel fuel rest pat rep

/-- Python `str.replace` on character lists. -/
def listReplace (s pat rep : List Char) : List Char :=
  replaceFuel s.length s pat rep

/-- Python substring test (`pat in s`) on character lists. -/
def listHasSub (s pat : List Char) : Bool :=
  pat.isPrefixOf s ||
    match s with
    | [] => false
    | _ :: rest => listHasSub rest pat

/-- Python `str.replace` on strings. -/
def strReplace (s pat rep : String) : String :=
  ⟨listReplace s.toList pat.toList rep.toList⟩

/-- Python substring test (`pat in s`) on strings. -/
def strHasSub (s pat : String) : Bool :=
  listHasSub s.toList pat.toList

/-- Explicit concat-map, used to keep all list plumbing kernel-reducible. -/
def concatMap (f : α → List β) : List α → List β
  | [] => []
  | a :: l => f a ++ concatMap f l

/-- A tensor: row-major flat integer data together with its shape. -/
structure Tensor where
  shape : List Nat
  data : List Int
deriving DecidableEq

/-- A value of a state dictionary: a tensor, or a non-tensor (plain scalar). -/
inductive Value where
  | tensor (t : Tensor)
  | scalar (n : Int)
deriving DecidableEq

/-- `isinstance(v, torch.Tensor)`. -/
def Value.isTensor : Value → Bool
  | .tensor _ => true
  | .scalar _ => false

/-- The Python exceptions that the conversion code can raise. -/
inductive PyErr where
  /-- `KeyError` from a failed dictionary lookup. -/
  | keyError
  /-- `IndexError` from indexing an empty tuple. -/
  | indexError
  /-- `AssertionError` from a failed `assert`. -/
  | assertError
  /-- `TypeError` from `torch.cat` receiving a non-tensor element. -/
  | typeErrorCat
  /-- A shape/argument error raised inside a torch operation. -/
  | torchError
  /-- `RuntimeError("Attempting to map {n} non-tensor states to {m} keys")`. -/
  | nonTensorStates (nSrc nDst : Nat)
  /-- `RuntimeError("Some state keys were not converted: {sorted keys}")`. -/
  | keysNotConverted (keys : List String)
deriving DecidableEq

/-- Product of a shape (number of elements). -/
def shapeProd : List Nat → Nat
  | [] => 1
  | n :: rest => n * shapeProd rest

/-- Normalize a (possibly negative) torch dimension index against a rank. -/
def normDim (rank : Nat) (d : Int) : Except PyErr Nat :=
  let d' : Int := if d < 0 then d + rank else d
  if 0 ≤ d' ∧ d' < rank then .ok d'.toNat else .error .torchError

/-- Elements strictly before dimension `d` (row-major outer block count). -/
def outerProd (shape : List Nat) (d : Nat) : Nat := shapeProd (shape.take d)

/-- Elements strictly after dimension `d` (row-major inner block size). -/
def innerProd (shape : List Nat) (d : Nat) : Nat := shapeProd (shape.drop (d + 1))

/-- Shapes equal at every dimension except `d`. -/
def shapeEqExcept (s1 s2 : List Nat) (d : Nat) : Bool :=
  s1.length == s2.length &&
    (List.range s1.length).all (fun i => i == d || s1.getD i 0 == s2.getD i 0)

/-- `torch.cat` over tensors along dimension `dim`. -/
def torchCatT (ts : List Tensor) (dim : Int) : Except PyErr Tensor :=
  match ts with
  | [] => .error .torchError
  | t0 :: rest =>
    if t0.shape.length = 0 then .error .torchError
    else
      match normDim t0.shape.length dim with
      | .error e => .error e
      | .ok d =>
        if rest.all (fun t => shapeEqExcept t.shape t0.shape d) then
          let inner := innerProd t0.shape d
          let total := ((t0 :: rest).map (fun t => t.shape.getD d 0)).sum
          let data := concatMap
            (fun o => concatMap
              (fun t => (t.data.drop (o * (t.shape.getD d 0 * inner))).take
                (t.shape.getD d 0 * inner))
              (t0 :: rest))
            (List.range (outerProd t0.shape d))
          .ok ⟨t0.shape.take d ++ total :: t0.shape.drop (d + 1), data⟩
        else .error .torchError

/-- Extract the tensors of a list of values; `none` if any is a non-tensor. -/
def valueTensors : List Value → Option (List Tensor)
  | [] => some []
  | .tensor t :: rest => (valueTensors rest).map (t :: ·)
  | .scalar _ :: _ => none

/-- `torch.cat` over state-dict values: raises `TypeError` on a non-tensor. -/
def torchCat (vs : List Value) (dim : Int) : Except PyErr Tensor :=
  match valueTensors vs with
  | some ts => torchCatT ts dim
  | none => .error .typeErrorCat

/-- Resolve `torch.unflatten` sizes (at most one `-1` entry, inferred). -/
def resolveUnflattenSizes (total : Nat) (sizes : List Int) : Except PyErr (List Nat) :=
  if sizes.all (fun s => 0 < s) then
    let ns := sizes.map Int.toNat
    if shapeProd ns = total then .ok ns else .error .torchError
  else if sizes.filter (fun s => ¬0 < s) = [-1] then
    let other := shapeProd ((sizes.filter (fun s => 0 < s)).map Int.toNat)
    if 0 < other ∧ total % other = 0 then
      .ok (sizes.map (fun s => if s = -1 then total / other else s.toNat))
    else .error .torchError
  else .error .torchError

/-- `Tensor.unflatten(dim, sizes)`: reshape one axis; row-major data unchanged. -/
def torchUnflatten (t : Tensor) (dim : Int) (sizes : List Int) : Except PyErr Tensor :=
  match normDim t.shape.length dim with
  | .error e => .error e
  | .ok d =>
    match resolveUnflattenSizes (t.shape.getD d 0) sizes with
    | .error e => .error e
    | .ok ns => .ok ⟨t.shape.take d ++ ns ++ t.shape.drop (d + 1), t.data⟩

/-- Row-major multi-index of a flat index. -/
def multiIndex : List Nat → Nat → List Nat
  | [], _ => []
  | _ :: rest, flat => flat / shapeProd rest :: multiIndex rest (flat % shapeProd rest)

/-- Row-major flat index of a multi-index. -/
def flatIndex : List Nat → List Nat → Nat
  | _ :: rest, i :: irest => i * shapeProd rest + flatIndex rest irest
  | _, _ => 0

/-- `Tensor.permute(perm)`: reorder the dimensions of a tensor. -/
def torchPermute (t : Tensor) (perm : List Int) : Except PyErr Tensor :=
  let rank := t.shape.length
  if perm.length = rank then
    match perm.mapM (normDim rank) with
    | .error e => .error e
    | .ok pn =>
      if (List.range rank).all (fun i => pn.contains i) then
        let newShape := pn.map (fun i => t.shape.getD i 0)
        let data := (List.range (shapeProd newShape)).map (fun f =>
          let m := multiIndex newShape f
          let old := (List.range rank).map (fun i => m.getD (pn.findIdx (· = i)) 0)
          t.data.getD (flatIndex t.shape old) 0)
        .ok ⟨newShape, data⟩
      else .error .torchError
  else .error .torchError

/-- `Tensor.flatten(start, end)`: collapse an inclusive range of dimensions. -/
def torchFlatten (t : Tensor) (sd ed : Int) : Except PyErr Tensor :=
  match normDim t.shape.length sd, normDim t.shape.length ed with
  | .ok s, .ok e =>
    if s ≤ e then
      .ok ⟨t.shape.take s ++ shapeProd ((t.shape.drop s).take (e - s + 1))
        :: t.shape.drop (e + 1), t.data⟩
    else .error .torchError
  | .error e, _ => .error e
  | _, .error e => .error e

/-- The slice of `t` along dimension `d` keeping indices in `[a, b)`. -/
def sliceAlong (t : Tensor) (d a b : Nat) : Tensor :=
  let inner := innerProd t.shape d
  let len := t.shape.getD d 0
  let data := concatMap
    (fun o => ((t.data.drop (o * (len * inner) + a * inner)).take ((b - a) * inner)))
    (List.range (outerProd t.shape d))
  ⟨t.shape.take d ++ (b - a) :: t.shape.drop (d + 1), data⟩

/-- The chunk boundaries `torch.chunk` uses for a size-`len` axis split into
`chunks` pieces: pieces of size `⌈len/chunks⌉`, a possibly smaller last one. -/
def chunkSizes (len chunks : Nat) : List Nat :=
  let s := (len + chunks - 1) / chunks
  let k := (len + s - 1) / s
  (List.range k).map (fun i => min ((i + 1) * s) len - i * s)

/-- `torch.chunk(t, chunks, dim)`: best-effort even split, never an uneven-size
error; may return fewer than `chunks` pieces. -/
def torchChunk (t : Tensor) (chunks : Nat) (dim : Int) : Except PyErr (List Tensor) :=
  if chunks = 0 then .error .torchError
  else
    match normDim t.shape.length dim with
    | .error e => .error e
    | .ok d =>
      let len := t.shape.getD d 0
      if len = 0 then .ok (List.replicate chunks (sliceAlong t d 0 0))
      else
        let s := (len + chunks - 1) / chunks
        let k := (len + s - 1) / s
        .ok ((List.range k).map (fun i => sliceAlong t d (i * s) (min ((i + 1) * s) len)))

/-- Association-list lookup, modelling Python `dict.get` / `k in d`. -/
def alGet [DecidableEq α] (l : List (α × β)) (k : α) : Option β :=
  match l with
  | [] => none
  | (k', v) :: rest => if k' = k then some v else alGet rest k

/-- Python `d[k]`: raises `KeyError` when the key is absent. -/
def dictLook [DecidableEq α] (l : List (α × β)) (k : α) : Except PyErr β :=
  match alGet l k with
  | some v => .ok v
  | none => .error .keyError

/-- A state dictionary: insertion-ordered string-keyed mapping to values. -/
abbrev StateDict := List (String × Value)

/-- Python `d[k] = v`: update in place if present, else append. -/
def dictSet (d : StateDict) (k : String) (v : Value) : StateDict :=
  match d with
  | [] => [(k, v)]
  | (k', v') :: rest => if k' = k then (k, v) :: rest else (k', v') :: dictSet rest k v

/-- The keys of a dictionary, in insertion order. -/
def dictKeys (d : StateDict) : List String := d.map Prod.fst

/-- Placeholder bounds: `Dict[TemplatePlaceholder, int]`. -/
abbrev PBounds := List (TemplatePlaceholder × Nat)

/-- Placeholder values: `Dict[TemplatePlaceholder, int | None]`; the entry
`none` is the expand-over-all-values sentinel. -/
abbrev PValues := List (TemplatePlaceholder × Option Nat)

/-- `str | Tuple[str, ...]`, the type of the template key fields. -/
inductive KeySpec where
  | single (s : String)
  | multi (ss : List String)
deriving DecidableEq

/-- An entry of the `unflatten_dim` shape: a placeholder or a literal int. -/
inductive UnflatEntry where
  | ph (p : TemplatePlaceholder)
  | lit (n : Int)
deriving DecidableEq

/-- `StateMappingTemplate`: the template for a mapping of state between
formats, with placeholders for layer/expert indices. -/
structure StateMappingTemplate where
  source_template_keys : KeySpec
  dest_template_keys : KeySpec
  source_key_per_placeholder : Option TemplatePlaceholder := none
  dest_key_per_placeholder : Option TemplatePlaceholder := none
  source_concat_dim : Int := 0
  unflatten_dim : Option (Int × List UnflatEntry) := none
  dims_permutation : Option (List Int) := none
  flatten_dims : Option (Int × Int) := none
  dest_chunk_dim : Int := 0
deriving DecidableEq

/-- `StateMapping`: a concrete mapping with all placeholders resolved. -/
structure StateMapping where
  source_keys : List String
  dest_keys : List String
  source_concat_dim : Int := 0
  unflatten_dim : Option (Int × List Int) := none
  dims_permutation : Option (List Int) := none
  flatten_dims : Option (Int × Int) := none
  dest_chunk_dim : Int := 0
deriving DecidableEq

/-- The `__post_init__` check: per-placeholder expansion is incompatible with
a tuple of template keys on the same side. -/
def postInitOk (t : StateMappingTemplate) : Bool :=
  (t.source_key_per_placeholder.isNone ||
    match t.source_template_keys with | .single _ => true | .multi _ => false) &&
  (t.dest_key_per_placeholder.isNone ||
    match t.dest_template_keys with | .single _ => true | .multi _ => false)

/-- The inner loop of `_templates_to_keys` for one template string: substitute
each placeholder value into `key`, or fail (`none`) on a mismatch between the
assignment and the (fixed) `template` string. -/
def substLoop (pvs : PValues) (template : String) (key : String) : Option String :=
  match pvs with
  | [] => some key
  | (p, v) :: rest =>
    if strHasSub template p.str then
      match v with
      | some n => substLoop rest template (strReplace key p.str (toString n))
      | none => none
    else
      match v with
      | none => substLoop rest template key
      | some _ => none

/-- The `for template in templates` loop of `_templates_to_keys`: materialize
every template string, failing (`none`) as soon as one is invalid. -/
def keysLoop (pvs : PValues) : List String → Option (List String)
  | [] => some []
  | t :: rest =>
    match substLoop pvs t t with
    | none => none
    | some k =>
      match keysLoop pvs rest with
      | none => none
      | some ks => some (k :: ks)

/-- `StateMappingTemplate._templates_to_keys`: expand a per-placeholder side
into one key per value, then substitute the remaining placeholder values; the
two `assert` statements are modelled as `AssertionError`. -/
def templates_to_keys (templates : KeySpec) (placeholder_values : PValues)
    (key_per_placeholder : Option TemplatePlaceholder)
    (key_per_placeholder_values : Option (List Nat)) :
    Except PyErr (Option (List String)) :=
  match key_per_placeholder with
  | some kp =>
    match key_per_placeholder_values with
    | none => .ok none
    | some vals =>
      match templates with
      | .multi _ => .error .assertError
      | .single s =>
        if strHasSub s kp.str then
          .ok (keysLoop placeholder_values
            (vals.map (fun v => strReplace s kp.str (toString v))))
        else .error .assertError
  | none =>
    let ts := match templates with | .single s => [s] | .multi ss => ss
    .ok (keysLoop placeholder_values ts)

/-- The placeholders a template requires to be present in the bounds: the two
per-placeholder fields plus any placeholder inside `unflatten_dim`. -/
def requiredPlaceholders (t : StateMappingTemplate) : List TemplatePlaceholder :=
  (match t.source_key_per_placeholder with | some p => [p] | none => []) ++
  (match t.dest_key_per_placeholder with | some p => [p] | none => []) ++
  (match t.unflatten_dim with
   | some dims => dims.2.filterMap
      (fun e => match e with | .ph p => some p | .lit _ => none)
   | none => [])

/-- The `key_per_placeholder_values` argument computed in `to_mapping` for one
side: `list(range(bound))` when the side expands and the assignment holds the
sentinel, `None` otherwise; a missing assignment entry is a `KeyError`. -/
def perPlaceholderValues (kp : Option TemplatePlaceholder)
    (placeholder_values : PValues) (placeholder_bounds : PBounds) :
    Except PyErr (Option (List Nat)) :=
  match kp with
  | none => .ok none
  | some p =>
    match alGet placeholder_values p with
    | none => .error .keyError
    | some (some _) => .ok none
    | some none =>
      match alGet placeholder_bounds p with
      | none => .error .keyError
      | some b => .ok (some (List.range b))

/-- The body of `to_mapping` after the required-placeholder check passed. -/
def to_mappingBody (t : StateMappingTemplate) (placeholder_values : PValues)
    (placeholder_bounds : PBounds) : Except PyErr (Option StateMapping) :=
  perPlaceholderValues t.source_key_per_placeholder
      placeholder_values placeholder_bounds >>= fun srcExp =>
  templates_to_keys t.source_template_keys placeholder_values
      t.source_key_per_placeholder srcExp >>= fun source_keys =>
  perPlaceholderValues t.dest_key_per_placeholder
      placeholder_values placeholder_bounds >>= fun dstExp =>
  templates_to_keys t.dest_template_keys placeholder_values
      t.dest_key_per_placeholder dstExp >>= fun dest_keys =>
  match source_keys, dest_keys with
  | some sks, some dks =>
    (match t.unflatten_dim with
      | none => .ok none
      | some dims =>
        dims.2.mapM (fun e =>
          match e with
          | .ph p =>
            match alGet placeholder_bounds p with
            | some b => Except.ok (Int.ofNat b)
            | none => Except.error PyErr.keyError
          | .lit n => Except.ok n) >>= fun resolved =>
        .ok (some (dims.1, resolved))) >>= fun unflat =>
    .ok (some ⟨sks, dks, t.source_concat_dim, unflat, t.dims_permutation,
      t.flatten_dims, t.dest_chunk_dim⟩)
  | _, _ => .ok none

/-- `StateMappingTemplate.to_mapping`: resolve a template against a placeholder
value assignment and the placeholder bounds; `.ok none` is Python `None`
(template not applicable for this assignment). -/
def to_mapping (t : StateMappingTemplate) (placeholder_values : PValues)
    (placeholder_bounds : PBounds) : Except PyErr (Option StateMapping) :=
  if (requiredPlaceholders t).all (fun p => (alGet placeholder_bounds p).isSome) then
    to_mappingBody t placeholder_values placeholder_bounds
  else
    .ok none

/-- `StateConverter`: holds the list of mapping templates. -/
structure StateConverter where
  mapping_templates : List StateMappingTemplate

/-- `StateConverter._fill_placeholders` (delegates to `to_mapping`). -/
def fill_placeholders (t : StateMappingTemplate) (placeholder_values : PValues)
    (placeholder_bounds : PBounds) : Except PyErr (Option StateMapping) :=
  to_mapping t placeholder_values placeholder_bounds

/-- The `itertools.product` enumeration of `_get_mappings`: every combination
assigning each placeholder of the bounds either a value in `[0, bound)` or the
`None` sentinel, first placeholder slowest, concrete values before the
sentinel. -/
def placeholderValueCombinations (bounds : PBounds) : List PValues :=
  match bounds with
  | [] => [[]]
  | (p, b) :: rest =>
    concatMap (fun c => (placeholderValueCombinations rest).map (fun combo => c :: combo))
      (((List.range b).map (fun i => (p, some i))) ++ [(p, none)])

/-- `StateConverter.get_mappings` (and `_get_mappings`, which it delegates to):
resolve every template against every placeholder combination, drop inapplicable
results, and keep mappings whose source keys all occur in the state dict. -/
def StateConverter.get_mappings (c : StateConverter) (state_dict : StateDict)
    (placeholder_bounds : PBounds) : Except PyErr (List StateMapping) := do
  let combos := placeholderValueCombinations placeholder_bounds
  let resolved ← (concatMap (fun t => combos.map (fun pv => (t, pv)))
      c.mapping_templates).mapM
    (fun tp => fill_placeholders tp.1 tp.2 placeholder_bounds)
  let state_mappings := resolved.filterMap id
  let state_keys := dictKeys state_dict
  return state_mappings.filter (fun m => m.source_keys.all (fun k => state_keys.contains k))

/-- Python `set` difference (`unused -= set(keys)`): removing an element that
is absent is a silent no-op. -/
def setDiff (unused : List String) (ks : List String) : List String :=
  unused.filter (fun k => !ks.contains k)

/-- Insert into a sorted list of strings (code-point order, like Python). -/
def insertSorted (x : String) : List String → List String
  | [] => [x]
  | y :: rest => if x ≤ y then x :: y :: rest else y :: insertSorted x rest

/-- Python `sorted` on strings. -/
def sortStrings (l : List String) : List String := l.foldr insertSorted []

/-- The list `[state_dict[key] for key in original_keys]`. -/
def gatherValues (sd : StateDict) (ks : List String) : Except PyErr (List Value) :=
  ks.mapM (fun k => dictLook sd k)

/-- Assign the zipped `(dest key, chunk)` pairs into the destination dict, in
order (`converted_state_dict[hf_key] = state_chunk.contiguous()`). -/
def zipAssign (acc : StateDict) : List (String × Tensor) → StateDict
  | [] => acc
  | (k, t) :: rest => zipAssign (dictSet acc k (.tensor t)) rest

/-- The body of one iteration of the `for mapping in state_mappings` loop of
`convert`: check tensor-ness of the first source value, concatenate, unflatten,
permute, flatten, chunk, and assign the chunks to the destination keys. -/
def applyMapping (state_dict : StateDict) (m : StateMapping) (acc : StateDict) :
    Except PyErr StateDict :=
  match m.source_keys with
  | [] => .error .indexError
  | k0 :: _ =>
    dictLook state_dict k0 >>= fun v0 =>
    if v0.isTensor then
      gatherValues state_dict m.source_keys >>= fun vs =>
      torchCat vs m.source_concat_dim >>= fun t0 =>
      (match m.unflatten_dim with
        | some dims => torchUnflatten t0 dims.1 dims.2
        | none => .ok t0) >>= fun t1 =>
      (match m.dims_permutation with
        | some perm => torchPermute t1 perm
        | none => .ok t1) >>= fun t2 =>
      (match m.flatten_dims with
        | some fd => torchFlatten t2 fd.1 fd.2
        | none => .ok t2) >>= fun t3 =>
      torchChunk t3 m.dest_keys.length m.dest_chunk_dim >>= fun chunks =>
      .ok (zipAssign acc (m.dest_keys.zip chunks))
    else
      .error (.nonTensorStates m.source_keys.length m.dest_keys.length)

/-- The `for mapping in state_mappings` loop of `convert`, threading the
(read-only) source state dict, the unused-key set and the destination dict. -/
def convertLoop (state_dict : StateDict) (ms : List StateMapping)
    (unused : List String) (acc : StateDict) :
    StateDict × Except PyErr (List String × StateDict) :=
  match ms with
  | [] => (state_dict, .ok (unused, acc))
  | m :: rest =>
    match applyMapping state_dict m acc with
    | .error e => (state_dict, .error e)
    | .ok acc' => convertLoop state_dict rest (setDiff unused m.source_keys) acc'

/-- `StateConverter.convert` with the caller-owned source dictionary threaded
through explicitly: the first component is the source dictionary as left
behind by the call, the second the returned value or raised exception. -/
def StateConverter.convertSt (c : StateConverter) (state_dict : StateDict)
    (placeholder_bounds : PBounds) : StateDict × Except PyErr StateDict :=
  match c.get_mappings state_dict placeholder_bounds with
  | .error e => (state_dict, .error e)
  | .ok ms =>
    match convertLoop state_dict ms (dictKeys state_dict) [] with
    | (sd', .error e) => (sd', .error e)
    | (sd', .ok (unused, acc)) =>
      if unused.isEmpty then (sd', .ok acc)
      else (sd', .error (.keysNotConverted (sortStrings unused)))

/-- `StateConverter.convert`: convert a state dict to the other format. -/
def StateConverter.convert (c : StateConverter) (state_dict : StateDict)
    (placeholder_bounds : PBounds) : Except PyErr StateDict :=
  (c.convertSt state_dict placeholder_bounds).2

/-- Specification-side description of placeholder substitution (spec §4.1
step 3): substitute every placeholder that has a concrete value, in assignment
order, by the string form of its value. -/
def specSubstitute (pvs : PValues) (s : String) : String :=
  pvs.foldl (fun key pv =>
    match pv.2 with
    | some n => strReplace key pv.1.str (toString n)
    | none => key) s

/-- The template of the spec's concrete example: per-layer attention query
projection, OLMo Core naming to HF naming. -/
def qProjTemplate : StateMappingTemplate :=
  { source_template_keys := .single "blocks.[layer].attn.w_q"
    dest_template_keys := .single "model.layers.[layer].self_attn.q_proj.weight"
    source_key_per_placeholder := some .layer
    dest_key_per_placeholder := some .layer }

/-- The concrete mapping `qProjTemplate` resolves to under bounds `LAYER=2`. -/
def qProjMapping : StateMapping :=
  { source_keys := ["blocks.0.attn.w_q", "blocks.1.attn.w_q"]
    dest_keys := ["model.layers.0.self_attn.q_proj.weight",
      "model.layers.1.self_attn.q_proj.weight"] }

/-- A template mapping the single source key `a` to three destination keys. -/
def tmplChunk3 : StateMappingTemplate :=
  { source_template_keys := .single "a"
    dest_template_keys := .multi ["d1", "d2", "d3"] }

/-- A source dict holding a single size-10 one-dimensional tensor under `a`. -/
def sdTen : StateDict := [("a", .tensor ⟨[10], [0, 1, 2, 3, 4, 5, 6, 7, 8, 9]⟩)]

/-- A template mapping source key `a` to destination key `d1`. -/
def tmplA : StateMappingTemplate :=
  { source_template_keys := .single "a", dest_template_keys := .single "d1" }

/-- A template mapping the same source key `a` to destination key `d2`. -/
def tmplB : StateMappingTemplate :=
  { source_template_keys := .single "a", dest_template_keys := .single "d2" }

/-- The concrete mapping `tmplA` resolves to. -/
def mapA : StateMapping := { source_keys := ["a"], dest_keys := ["d1"] }

/-- The concrete mapping `tmplB` resolves to. -/
def mapB : StateMapping := { source_keys := ["a"], dest_keys := ["d2"] }

/-- A source dict with one size-1 tensor under `a`. -/
def sdOne : StateDict := [("a", .tensor ⟨[1], [7]⟩)]

/-- A two-source-key template (tuple keys `a`, `b` to single key `d`). -/
def tmplPairAB : StateMappingTemplate :=
  { source_template_keys := .multi ["a", "b"], dest_template_keys := .single "d" }

/-- A source dict where the first source key holds a tensor and the second a
plain (non-tensor) scalar. -/
def sdMixed : StateDict := [("a", .tensor ⟨[1], [0]⟩), ("b", .scalar 5)]

/-- A template whose key strings mention `[expert]` although neither
per-placeholder field nor `unflatten_dim` requires the `EXPERT` placeholder. -/
def tmplExpertStr : StateMappingTemplate :=
  { source_template_keys := .single "x.[expert].w", dest_template_keys := .single "y" }

/-- The mapping `tmplExpertStr` resolves to when `EXPERT` has no entry in the
bounds: the placeholder text survives literally in the source key. -/
def mapExpertStr : StateMapping := { source_keys := ["x.[expert].w"], dest_keys := ["y"] }

/-- A template that requires the `EXPERT` placeholder via
`source_key_per_placeholder`. -/
def tmplPerExpert : StateMappingTemplate :=
  { source_template_keys := .single "m.[expert].w"
    dest_template_keys := .single "d"
    source_key_per_placeholder := some .expert }

/-- A source dict with an uncovered key `zz` next to the covered key `a`. -/
def sdUncovered : StateDict :=
  [("a", .tensor ⟨[1], [7]⟩), ("zz", .tensor ⟨[1], [8]⟩)]

/-- The concrete mapping `qProjTemplate` resolves to under bounds `LAYER=4`:
four source and destination keys, indices 0 through 3 in ascending order. -/
def qProjMapping4 : StateMapping :=
  { source_keys := ["blocks.0.attn.w_q", "blocks.1.attn.w_q", "blocks.2.attn.w_q",
      "blocks.3.attn.w_q"]
    dest_keys := ["model.layers.0.self_attn.q_proj.weight",
      "model.layers.1.self_attn.q_proj.weight",
      "model.layers.2.self_attn.q_proj.weight",
      "model.layers.3.self_attn.q_proj.weight"] }

theorem exbind_ok (a : α) (f : α → Except PyErr β) :
    (Except.ok a >>= f : Except PyErr β) = f a := rfl

theorem exbind_err (e : PyErr) (f : α → Except PyErr β) :
    (Except.error e >>= f : Except PyErr β) = Except.error e := rfl

theorem bind_eq_ok {x : Except PyErr α} {f : α → Except PyErr β} {b : β}
    (h : x >>= f = .ok b) : ∃ a, x = .ok a ∧ f a = .ok b := by
  cases x with
  | error e => rw [exbind_err] at h; cases h
  | ok a => rw [exbind_ok] at h; exact ⟨a, rfl, h⟩

theorem convertLoop_fst (sd : StateDict) (ms : List StateMapping) (u : List String)
    (acc : StateDict) : (convertLoop sd ms u acc).1 = sd := by
  induction ms generalizing u acc with
  | nil => rfl
  | cons m rest ih =>
    unfold convertLoop
    split
    · rfl
    · exact ih _ _

theorem convertLoop_ok_unused (sd : StateDict) (ms : List StateMapping) :
    ∀ (u : List String) (acc : StateDict) (uF : List String) (accF : StateDict),
    (convertLoop sd ms u acc).2 = .ok (uF, accF) →
    uF = u.filter (fun k => ms.all (fun m => !m.source_keys.contains k)) := by
  induction ms with
  | nil =>
    intro u acc uF accF h
    unfold convertLoop at h
    simp only [Except.ok.injEq, Prod.mk.injEq] at h
    obtain ⟨h1, _⟩ := h
    subst h1
    simp
  | cons m rest ih =>
    intro u acc uF accF h
    unfold convertLoop at h
    split at h
    · cases h
    · have h2 := ih _ _ _ _ h
      rw [h2]
      unfold setDiff
      rw [List.filter_filter]
      apply List.filter_congr
      intro k _
      simp [List.all_cons, Bool.and_comm]

/-- C9: `StateConverter.convert` (with `get_mappings` and the whole mapping
pipeline inside it) leaves the caller-owned source state dictionary exactly as
it was, whether it returns a destination dictionary or raises, and the
returned value of `convert` is the second component of that state-threaded
run. -/
theorem convert_preserves_source (c : StateConverter) (sd : StateDict) (b : PBounds) :
    (c.convertSt sd b).1 = sd ∧ c.convert sd b = (c.convertSt sd b).2 := by
  constructor
  · unfold StateConverter.convertSt
    cases hg : c.get_mappings sd b with
    | error e => rfl
    | ok ms =>
      have hfst := convertLoop_fst sd ms (dictKeys sd) []
      rcases hcl : convertLoop sd ms (dictKeys sd) [] with ⟨sd', e⟩
      rw [hcl] at hfst
      cases e with
      | error e =>
        simp only [hcl]
        simpa using hfst
      | ok p =>
        obtain ⟨u, acc⟩ := p
        simp only [hcl]
        split <;> simpa using hfst
  · rfl

/-- C2 counterexample: a mapping that splits a size-10 axis into 3 destination
keys does not raise a shape error; `convert` returns a destination dictionary
with unequal chunks of sizes 4, 4 and 2. -/
theorem chunk_uneven_cex :
    StateConverter.convert ⟨[tmplChunk3]⟩ sdTen [] =
      .ok [("d1", .tensor ⟨[4], [0, 1, 2, 3]⟩), ("d2", .tensor ⟨[4], [4, 5, 6, 7]⟩),
        ("d3", .tensor ⟨[2], [8, 9]⟩)] := rfl

/-- C3 counterexample: a template whose key string mentions `[expert]` without
declaring `EXPERT` in `source_key_per_placeholder`, `dest_key_per_placeholder`
or `unflatten_dim` resolves to a concrete mapping (not the not-applicable
`None`) even though the bounds have no `EXPERT` entry, and `get_mappings` can
select it. -/
theorem expert_string_reference_cex :
    strHasSub "x.[expert].w" TemplatePlaceholder.expert.str = true ∧
    to_mapping tmplExpertStr [] [] = .ok (some mapExpertStr) ∧
    StateConverter.get_mappings ⟨[tmplExpertStr]⟩ [("x.[expert].w", .tensor ⟨[1], [0]⟩)] []
      = .ok [mapExpertStr] :=
  ⟨rfl, rfl, rfl⟩

/-- C3 amended: a template that requires a placeholder through
`source_key_per_placeholder`, `dest_key_per_placeholder` or the placeholders of
`unflatten_dim` is rejected (`to_mapping` returns not-applicable) whenever the
bounds lack an entry for that placeholder, for every value assignment. -/
theorem required_missing_not_applicable (t : StateMappingTemplate) (pvs : PValues)
    (pbs : PBounds) (p : TemplatePlaceholder)
    (hp : p ∈ requiredPlaceholders t) (hb : alGet pbs p = none) :
    to_mapping t pvs pbs = .ok none := by
  unfold to_mapping
  rw [if_neg]
  intro hall
  rw [List.all_eq_true] at hall
  have h2 := hall p hp
  rw [hb] at h2
  exact absurd h2 (by simp)

/-- C3 amended witness: the per-expert template is rejected under empty
bounds. -/
theorem required_missing_not_applicable_witness :
    to_mapping tmplPerExpert [] [] = .ok none :=
  required_missing_not_applicable tmplPerExpert [] [] .expert (by decide) rfl

/-- C4 counterexample: a source dict whose second source key (of an applicable
two-key mapping) holds a plain scalar makes `convert` raise the concatenation
`TypeError`, not the unsupported-shape `RuntimeError`. -/
theorem nontensor_later_cex :
    alGet sdMixed "b" = some (.scalar 5) ∧
    StateConverter.get_mappings ⟨[tmplPairAB]⟩ sdMixed [] =
      .ok [{ source_keys := ["a", "b"], dest_keys := ["d"] }] ∧
    StateConverter.convert ⟨[tmplPairAB]⟩ sdMixed [] = .error .typeErrorCat :=
  ⟨rfl, rfl, rfl⟩

/-- C7 counterexample: when two concrete mappings both claim the source key
`a`, the second removal from the unused-key set raises nothing: `convert`
completes and returns a destination dictionary. -/
theorem double_claim_cex :
    StateConverter.get_mappings ⟨[tmplA, tmplB]⟩ sdOne [] = .ok [mapA, mapB] ∧
    mapA.source_keys.contains "a" = true ∧ mapB.source_keys.contains "a" = true ∧
    mapA ≠ mapB ∧
    StateConverter.convert ⟨[tmplA, tmplB]⟩ sdOne [] =
      .ok [("d1", .tensor ⟨[1], [7]⟩), ("d2", .tensor ⟨[1], [7]⟩)] :=
  ⟨rfl, rfl, rfl, by decide, rfl⟩

/-- C7 amended: removing a mapping's source keys from the unused-key set is
idempotent set subtraction that raises nothing — a second removal of an
already-removed key is a silent no-op — so a conversion with a double-claimed
source key completes and returns a destination dictionary. -/
theorem double_claim_silent :
    (∀ (u ks : List String), setDiff (setDiff u ks) ks = setDiff u ks) ∧
    (∀ (u ks : List String) (k : String), k ∈ ks → k ∉ setDiff u ks) ∧
    (∃ d, StateConverter.convert ⟨[tmplA, tmplB]⟩ sdOne [] = .ok d) := by
  refine ⟨?_, ?_, ⟨_, rfl⟩⟩
  · intro u ks
    unfold setDiff
    rw [List.filter_filter]
    apply List.filter_congr
    intro k _
    rw [Bool.and_self]
  · intro u ks k hk hin
    have h2 := (List.mem_filter.mp hin).2
    simp at h2
    exact h2 hk

/-- C1: conversion enforces the coverage invariant: a destination dictionary is
returned only when every source key is claimed by some resolved mapping, and
when the mapping loop finishes with a non-empty unused-key set, `convert`
raises the coverage error listing exactly the unclaimed keys (the source keys
no mapping claims), sorted — never a partially populated dictionary. -/
theorem convert_coverage (c : StateConverter) (sd : StateDict) (b : PBounds)
    (ms : List StateMapping) (hms : c.get_mappings sd b = .ok ms) :
    (∀ d, c.convert sd b = .ok d →
      ∀ k ∈ dictKeys sd, ∃ m, m ∈ ms ∧ m.source_keys.contains k = true) ∧
    (∀ u acc, (convertLoop sd ms (dictKeys sd) []).2 = .ok (u, acc) → u ≠ [] →
      c.convert sd b = .error (.keysNotConverted (sortStrings u)) ∧
      u = (dictKeys sd).filter (fun k => ms.all (fun m => !m.source_keys.contains k))) := by
  have hrepr : c.convert sd b =
      (match convertLoop sd ms (dictKeys sd) [] with
        | (sd', .error e) => (sd', Except.error e)
        | (sd', .ok (u, acc)) =>
          if u.isEmpty then (sd', Except.ok acc)
          else (sd', Except.error (.keysNotConverted (sortStrings u)))).2 := by
    unfold StateConverter.convert StateConverter.convertSt
    rw [hms]
  constructor
  · intro d hd k hk
    by_contra hno
    rcases hcl : convertLoop sd ms (dictKeys sd) [] with ⟨sd', e⟩
    rw [hcl] at hrepr
    cases e with
    | error e =>
      rw [hd] at hrepr
      cases hrepr
    | ok p =>
      obtain ⟨u, acc⟩ := p
      have hu : u = (dictKeys sd).filter
          (fun k => ms.all (fun m => !m.source_keys.contains k)) := by
        apply convertLoop_ok_unused sd ms (dictKeys sd) [] u acc
        rw [hcl]
      by_cases hemp : u.isEmpty
      · have hkin : k ∈ u := by
          rw [hu, List.mem_filter]
          refine ⟨hk, ?_⟩
          rw [List.all_eq_true]
          intro m hm
          by_contra hcon
          exact hno ⟨m, hm, by simpa using hcon⟩
        rw [List.isEmpty_iff] at hemp
        rw [hemp] at hkin
        cases hkin
      · rw [hd] at hrepr
        simp only [hemp, if_false] at hrepr
        cases hrepr
  · intro u acc hcl2 hne
    have hu := convertLoop_ok_unused sd ms (dictKeys sd) [] u acc hcl2
    rcases hcl : convertLoop sd ms (dictKeys sd) [] with ⟨sd', e⟩
    rw [hcl] at hcl2 hrepr
    simp only at hcl2
    rw [hcl2] at hrepr
    have hemp : u.isEmpty = false := by
      rw [List.isEmpty_eq_false_iff_exists_mem]
      cases u with
      | nil => exact absurd rfl hne
      | cons a rest => exact ⟨a, List.mem_cons_self a rest⟩
    simp only [hemp, if_false] at hrepr
    exact ⟨hrepr, hu⟩

/-- C1 witness: with the single template `a → d1` and a source dict holding
keys `a` and `zz`, the loop leaves `zz` unused and `convert` raises the
coverage error listing exactly `zz`. -/
theorem convert_coverage_witness :
    StateConverter.convert ⟨[tmplA]⟩ sdUncovered [] =
      .error (.keysNotConverted (sortStrings ["zz"])) ∧
    ["zz"] = (dictKeys sdUncovered).filter
      (fun k => [mapA].all (fun m => !m.source_keys.contains k)) :=
  (convert_coverage ⟨[tmplA]⟩ sdUncovered [] [mapA] rfl).2 ["zz"]
    [("d1", .tensor ⟨[1], [7]⟩)] rfl (by decide)

theorem substLoop_eq_foldl (pvs : PValues) (s : String)
    (h : ∀ p v, (p, v) ∈ pvs →
      (strHasSub s p.str = true → v ≠ none) ∧ (strHasSub s p.str = false → v = none)) :
    ∀ key, substLoop pvs s key = some (pvs.foldl (fun key pv =>
      match pv.2 with
      | some n => strReplace key pv.1.str (toString n)
      | none => key) key) := by
  induction pvs with
  | nil => intro key; rfl
  | cons qw rest ih =>
    intro key
    obtain ⟨q, w⟩ := qw
    have hq := h q w (List.mem_cons_self (q, w) rest)
    have hrest : ∀ p v, (p, v) ∈ rest →
        (strHasSub s p.str = true → v ≠ none) ∧ (strHasSub s p.str = false → v = none) :=
      fun p v hm => h p v (List.mem_cons_of_mem _ hm)
    cases hsq : strHasSub s q.str with
    | true =>
      obtain ⟨n, rfl⟩ := Option.ne_none_iff_exists'.mp (hq.1 hsq)
      unfold substLoop
      rw [hsq]
      simp only [if_true, List.foldl_cons]
      exact ih hrest _
    | false =>
      have hw := hq.2 hsq
      subst hw
      unfold substLoop
      rw [hsq]
      simp only [if_false, List.foldl_cons]
      exact ih hrest _

/-- C8: key materialization rejects an assignment exactly on a mismatch in
either direction — a placeholder present in the template string whose entry is
the expand sentinel, or a placeholder absent from the string that has a
concrete value, each make the result not-applicable (and one failed template
string makes the whole tuple not-applicable); with no mismatch, every
placeholder present in the string is substituted by the string form of its
value. -/
theorem key_materialization_mismatch :
    (∀ (pvs : PValues) (s key : String) (p : TemplatePlaceholder) (v : Option Nat),
      (p, v) ∈ pvs →
      ((strHasSub s p.str = true ∧ v = none) ∨ (strHasSub s p.str = false ∧ v ≠ none)) →
      substLoop pvs s key = none) ∧
    (∀ (pvs : PValues) (s : String),
      (∀ p v, (p, v) ∈ pvs →
        (strHasSub s p.str = true → v ≠ none) ∧ (strHasSub s p.str = false → v = none)) →
      substLoop pvs s s = some (specSubstitute pvs s)) ∧
    (∀ (pvs : PValues) (ts : List String) (s : String),
      s ∈ ts → substLoop pvs s s = none → keysLoop pvs ts = none) := by
  refine ⟨?_, ?_, ?_⟩
  · intro pvs
    induction pvs with
    | nil => intro s key p v hmem _; exact absurd hmem (List.not_mem_nil _)
    | cons qw rest ih =>
      intro s key p v hmem hmis
      obtain ⟨q, w⟩ := qw
      rcases List.mem_cons.mp hmem with heq | hmem2
      · injection heq with hpq hvw
        subst hpq
        subst hvw
        unfold substLoop
        rcases hmis with ⟨hc, rfl⟩ | ⟨hc, hv⟩
        · rw [hc]
          simp
        · obtain ⟨n, rfl⟩ := Option.ne_none_iff_exists'.mp hv
          rw [hc]
          simp
      · unfold substLoop
        cases hsq : strHasSub s q.str with
        | true =>
          cases w with
          | some n =>
            simp only [if_true]
            exact ih s _ p v hmem2 hmis
          | none => simp
        | false =>
          cases w with
          | some n => simp
          | none =>
            simp only [if_false]
            exact ih s key p v hmem2 hmis
  · intro pvs s h
    unfold specSubstitute
    exact substLoop_eq_foldl pvs s h s
  · intro pvs ts
    induction ts with
    | nil => intro s hmem _; exact absurd hmem (List.not_mem_nil _)
    | cons t' rest ih =>
      intro s hmem hsub
      rcases List.mem_cons.mp hmem with rfl | hmem2
      · unfold keysLoop
        rw [hsub]
      · unfold keysLoop
        cases hd : substLoop pvs t' t' with
        | none => rfl
        | some k => rw [ih s hmem2 hsub]

/-- C8 witness: a sentinel entry for a placeholder present in the string makes
materialization fail; a concrete entry substitutes its string form; and a
failing template string makes the whole tuple fail. -/
theorem key_materialization_mismatch_witness :
    substLoop [(.layer, none)] "a.[layer]" "a.[layer]" = none ∧
    substLoop [(.layer, some 3)] "a.[layer]" "a.[layer]" =
      some (specSubstitute [(.layer, some 3)] "a.[layer]") ∧
    keysLoop [(.layer, none)] ["a.[layer]"] = none :=
  ⟨key_materialization_mismatch.1 [(.layer, none)] "a.[layer]" "a.[layer]" .layer none
      (List.mem_singleton.mpr rfl) (Or.inl ⟨rfl, rfl⟩),
   key_materialization_mismatch.2.1 [(.layer, some 3)] "a.[layer]"
      (by
        intro p v hm
        rw [List.mem_singleton] at hm
        injection hm with h1 h2
        subst h1
        subst h2
        exact ⟨fun _ => by simp, fun hc => absurd hc (by decide)⟩),
   key_materialization_mismatch.2.2 [(.layer, none)] ["a.[layer]"] "a.[layer]"
      (List.mem_singleton.mpr rfl) rfl⟩

theorem sliceAlong_oneD (len : Nat) (data : List Int) (a b : Nat) :
    sliceAlong ⟨[len], data⟩ 0 a b = ⟨[b - a], (data.drop a).take (b - a)⟩ := by
  simp [sliceAlong, innerProd, outerProd, shapeProd, concatMap]

/-- C2 amended: splitting a tensor axis of positive size `len` into `n > 0`
pieces never raises an uneven-size error: `torch.chunk` returns chunks of size
`⌈len/n⌉` except for a smaller final chunk (and possibly fewer than `n` chunks
altogether), whose sizes are `chunkSizes len n`; `convert` assigns these
unequal chunks to the destination keys pairwise. -/
theorem torchChunk_ceil_sizes (len n : Nat) (data : List Int) (hn : n ≠ 0)
    (hlen : len ≠ 0) :
    ∃ cs, torchChunk ⟨[len], data⟩ n 0 = .ok cs ∧
      cs.map Tensor.shape = (chunkSizes len n).map (fun z => [z]) ∧
      cs.map Tensor.data = (List.range (chunkSizes len n).length).map
        (fun i => (data.drop (i * ((len + n - 1) / n))).take
          (min ((i + 1) * ((len + n - 1) / n)) len - i * ((len + n - 1) / n))) := by
  unfold torchChunk
  rw [if_neg hn]
  simp only [show normDim ([len] : List Nat).length 0 = .ok 0 from rfl,
    List.getD_cons_zero]
  rw [if_neg hlen]
  refine ⟨_, rfl, ?_, ?_⟩
  · rw [List.map_map]
    unfold chunkSizes
    rw [List.map_map]
    apply List.map_congr_left
    intro i _
    simp [sliceAlong_oneD]
  · rw [List.map_map]
    unfold chunkSizes
    rw [List.length_map, List.length_range]
    apply List.map_congr_left
    intro i _
    simp [sliceAlong_oneD]

/-- C2 amended witness: the size-10 axis split into 3 pieces succeeds with
chunk sizes `chunkSizes 10 3 = [4, 4, 2]`. -/
theorem torchChunk_ceil_sizes_witness :
    (∃ cs, torchChunk ⟨[10], [0, 1, 2, 3, 4, 5, 6, 7, 8, 9]⟩ 3 0 = .ok cs ∧
      cs.map Tensor.shape = (chunkSizes 10 3).map (fun z => [z]) ∧
      cs.map Tensor.data = (List.range (chunkSizes 10 3).length).map
        (fun i => (([0, 1, 2, 3, 4, 5, 6, 7, 8, 9] : List Int).drop
            (i * ((10 + 3 - 1) / 3))).take
          (min ((i + 1) * ((10 + 3 - 1) / 3)) 10 - i * ((10 + 3 - 1) / 3)))) ∧
    chunkSizes 10 3 = [4, 4, 2] :=
  ⟨torchChunk_ceil_sizes 10 3 [0, 1, 2, 3, 4, 5, 6, 7, 8, 9] (by decide) (by decide),
   rfl⟩

theorem alGet_dictSet (d : StateDict) (k k' : String) (v w : Value)
    (h : alGet (dictSet d k v) k' = some w) : w = v ∨ alGet d k' = some w := by
  induction d with
  | nil =>
    unfold dictSet alGet at h
    by_cases hk : k = k'
    · rw [if_pos hk] at h
      exact Or.inl (Option.some.inj h).symm
    · rw [if_neg hk] at h
      cases h
  | cons hd tl ih =>
    obtain ⟨a, b⟩ := hd
    unfold dictSet at h
    by_cases hak : a = k
    · rw [if_pos hak] at h
      unfold alGet at h
      by_cases hkk : k = k'
      · rw [if_pos hkk] at h
        exact Or.inl (Option.some.inj h).symm
      · rw [if_neg hkk] at h
        right
        unfold alGet
        rw [if_neg (by rw [hak]; exact hkk)]
        exact h
    · rw [if_neg hak] at h
      unfold alGet at h
      by_cases hak' : a = k'
      · rw [if_pos hak'] at h
        right
        unfold alGet
        rw [if_pos hak']
        exact h
      · rw [if_neg hak'] at h
        rcases ih h with h1 | h1
        · exact Or.inl h1
        · right
          unfold alGet
          rw [if_neg hak']
          exact h1

theorem zipAssign_tensors (l : List (String × Tensor)) (acc : StateDict)
    (hacc : ∀ k v, alGet acc k = some v → v.isTensor = true) :
    ∀ k v, alGet (zipAssign acc l) k = some v → v.isTensor = true := by
  induction l generalizing acc with
  | nil => exact hacc
  | cons p rest ih =>
    obtain ⟨k0, t0⟩ := p
    unfold zipAssign
    apply ih
    intro k v hv
    rcases alGet_dictSet acc k0 k (.tensor t0) v hv with rfl | h1
    · rfl
    · exact hacc k v h1

theorem applyMapping_ok_zipAssign (sd : StateDict) (m : StateMapping)
    (acc res : StateDict) (h : applyMapping sd m acc = .ok res) :
    ∃ pairs, res = zipAssign acc pairs := by
  unfold applyMapping at h
  cases hsk : m.source_keys with
  | nil =>
    rw [hsk] at h
    cases h
  | cons k0 ks =>
    rw [hsk] at h
    obtain ⟨v0, hv0, h⟩ := bind_eq_ok h
    by_cases ht : v0.isTensor = true
    · rw [if_pos ht] at h
      obtain ⟨vs, hvs, h⟩ := bind_eq_ok h
      obtain ⟨t0, ht0, h⟩ := bind_eq_ok h
      obtain ⟨t1, ht1, h⟩ := bind_eq_ok h
      obtain ⟨t2, ht2, h⟩ := bind_eq_ok h
      obtain ⟨t3, ht3, h⟩ := bind_eq_ok h
      obtain ⟨chunks, hch, h⟩ := bind_eq_ok h
      simp only [pure, Except.pure, Except.ok.injEq] at h
      exact ⟨_, h.symm⟩
    · rw [if_neg ht] at h
      cases h

theorem convertLoop_ok_tensors (sd : StateDict) (ms : List StateMapping) :
    ∀ (u : List String) (acc : StateDict) (uF : List String) (accF : StateDict),
    (convertLoop sd ms u acc).2 = .ok (uF, accF) →
    (∀ k v, alGet acc k = some v → v.isTensor = true) →
    (∀ k v, alGet accF k = some v → v.isTensor = true) := by
  induction ms with
  | nil =>
    intro u acc uF accF h hacc
    unfold convertLoop at h
    simp only [Except.ok.injEq, Prod.mk.injEq] at h
    obtain ⟨_, h2⟩ := h
    subst h2
    exact hacc
  | cons m rest ih =>
    intro u acc uF accF h hacc
    unfold convertLoop at h
    cases happ : applyMapping sd m acc with
    | error e =>
      simp only [happ] at h
      cases h
    | ok acc' =>
      simp only [happ] at h
      obtain ⟨pairs, rfl⟩ := applyMapping_ok_zipAssign sd m acc acc' happ
      exact ih _ _ _ _ h (zipAssign_tensors pairs acc hacc)

/-- C4 amended: when the value at the first source key of a mapping is a
non-tensor, the conversion step raises the unsupported-shape error naming the
source/destination key counts; a non-tensor in a later position instead
surfaces through the concatenation; and in no case is a non-tensor passed
through — every value of a successfully returned destination dictionary is a
tensor. -/
theorem nontensor_rejection :
    (∀ (sd : StateDict) (m : StateMapping) (acc : StateDict) (k0 : String)
        (ks : List String) (v : Value),
      m.source_keys = k0 :: ks → dictLook sd k0 = .ok v → v.isTensor = false →
      applyMapping sd m acc =
        .error (.nonTensorStates m.source_keys.length m.dest_keys.length)) ∧
    (∀ (c : StateConverter) (sd : StateDict) (b : PBounds) (d : StateDict),
      c.convert sd b = .ok d → ∀ k v, alGet d k = some v → v.isTensor = true) := by
  constructor
  · intro sd m acc k0 ks v hsk hlook hnt
    unfold applyMapping
    simp only [hsk, hlook, exbind_ok, hnt]
    simp
  · intro c sd b d hd k v hv
    unfold StateConverter.convert StateConverter.convertSt at hd
    cases hg : c.get_mappings sd b with
    | error e =>
      simp only [hg] at hd
      cases hd
    | ok ms =>
      simp only [hg] at hd
      rcases hcl : convertLoop sd ms (dictKeys sd) [] with ⟨sd', e⟩
      rw [hcl] at hd
      cases e with
      | error e =>
        simp only [] at hd
        cases hd
      | ok p =>
        obtain ⟨u, acc⟩ := p
        simp only [] at hd
        by_cases hemp : u.isEmpty
        · simp only [hemp, if_true] at hd
          obtain rfl : acc = d := Except.ok.inj hd
          have hacc := convertLoop_ok_tensors sd ms (dictKeys sd) [] u acc
            (by rw [hcl]) (by intro k' v' hv'; simp [alGet] at hv')
          exact hacc k v hv
        · simp only [hemp, if_false] at hd
          cases hd

/-- C4 amended witness: a scalar under the first source key yields the
unsupported-shape error with key counts 1 and 1, and a successful conversion
output value is a tensor. -/
theorem nontensor_rejection_witness :
    applyMapping [("a", .scalar 5)] mapA [] =
      .error (.nonTensorStates 1 1) ∧
    (Value.tensor ⟨[1], [7]⟩).isTensor = true :=
  ⟨nontensor_rejection.1 [("a", .scalar 5)] mapA [] "a" [] (.scalar 5) rfl rfl rfl,
   nontensor_rejection.2 ⟨[tmplA]⟩ sdOne [] [("d1", .tensor ⟨[1], [7]⟩)] rfl "d1"
     (.tensor ⟨[1], [7]⟩) rfl⟩

theorem normDim_zero (r : Nat) (hr : r ≠ 0) : normDim r 0 = .ok 0 := by
  unfold normDim
  rw [if_neg (by omega : ¬((0 : Int) < 0))]
  rw [if_pos ⟨le_refl 0, by exact_mod_cast Nat.pos_of_ne_zero hr⟩]
  rfl

theorem shapeEqExcept_refl (sh : List Nat) (d : Nat) : shapeEqExcept sh sh d = true := by
  unfold shapeEqExcept
  simp [List.all_eq_true]

theorem sliceAlong_dim0 (len : Nat) (tl : List Nat) (data : List Int) (a b : Nat) :
    sliceAlong ⟨len :: tl, data⟩ 0 a b =
      ⟨(b - a) :: tl, (data.drop (a * shapeProd tl)).take ((b - a) * shapeProd tl)⟩ := by
  simp [sliceAlong, innerProd, outerProd, shapeProd, concatMap]

theorem torchCat_pair_dim0 (hd : Nat) (tl : List Nat) (d0 d1 : List Int)
    (h0 : d0.length = hd * shapeProd tl) (h1 : d1.length = hd * shapeProd tl) :
    torchCat [.tensor ⟨hd :: tl, d0⟩, .tensor ⟨hd :: tl, d1⟩] 0 =
      .ok ⟨(hd + hd) :: tl, d0 ++ d1⟩ := by
  show torchCatT [⟨hd :: tl, d0⟩, ⟨hd :: tl, d1⟩] 0 = .ok ⟨(hd + hd) :: tl, d0 ++ d1⟩
  have ht0 : List.take (hd * shapeProd tl) d0 = d0 := by
    rw [← h0, List.take_length]
  have ht1 : List.take (hd * shapeProd tl) d1 = d1 := by
    rw [← h1, List.take_length]
  unfold torchCatT
  simp only []
  rw [if_neg (by simp : ¬(Tensor.mk (hd :: tl) d0).shape.length = 0)]
  rw [normDim_zero _ (by simp)]
  simp only [shapeEqExcept_refl, List.all_cons, List.all_nil, Bool.and_self, if_true,
    innerProd, outerProd, List.drop_succ_cons, List.drop_zero, List.take_zero,
    List.getD_cons_zero, List.map_cons, List.map_nil, List.sum_cons, List.sum_nil,
    show List.range 1 = [0] from rfl, concatMap, Nat.zero_mul, Nat.add_zero,
    List.append_nil, List.nil_append, List.take, shapeProd]
  rw [ht0, ht1]

theorem torchChunk_pair_dim0 (hd : Nat) (tl : List Nat) (d0 d1 : List Int) (hh : hd ≠ 0)
    (h0 : d0.length = hd * shapeProd tl) (h1 : d1.length = hd * shapeProd tl) :
    torchChunk ⟨(hd + hd) :: tl, d0 ++ d1⟩ 2 0 = .ok [⟨hd :: tl, d0⟩, ⟨hd :: tl, d1⟩] := by
  unfold torchChunk
  rw [if_neg (by omega : ¬(2 = 0))]
  rw [normDim_zero _ (by simp)]
  simp only [List.getD_cons_zero]
  rw [if_neg (by omega : ¬(hd + hd = 0))]
  have hs : (hd + hd + 2 - 1) / 2 = hd := by omega
  simp only [hs]
  have hk : (hd + hd + hd - 1) / hd = 2 := by
    have e1 : hd + hd + hd - 1 = hd * 2 + (hd - 1) := by omega
    rw [e1, Nat.mul_add_div (Nat.pos_of_ne_zero hh), Nat.div_eq_of_lt (by omega)]
  simp only [hk]
  rw [show List.range 2 = [0, 1] from rfl]
  simp only [List.map_cons, List.map_nil, sliceAlong_dim0]
  rw [show min ((0 + 1) * hd) (hd + hd) = hd by omega]
  rw [show min ((1 + 1) * hd) (hd + hd) = hd + hd by omega]
  simp only [Nat.zero_mul, Nat.one_mul, Nat.sub_zero, List.drop_zero]
  have e2 : hd + hd - hd = hd := by omega
  rw [e2]
  have ht0 : List.take (hd * shapeProd tl) (d0 ++ d1) = d0 := by
    rw [← h0, List.take_left]
  have hdr : List.drop (hd * shapeProd tl) (d0 ++ d1) = d1 := by
    rw [← h0, List.drop_left]
  have ht1 : List.take (hd * shapeProd tl) d1 = d1 := by
    rw [← h1, List.take_length]
  rw [ht0, hdr, ht1]

/-- C6: for the spec's concrete per-layer query-projection template under
bounds `LAYER = 2`, converting a source dict holding two equal-shaped tensors
under `blocks.0.attn.w_q` and `blocks.1.attn.w_q` returns exactly the two HF
keys bound to value-equal tensors. -/
theorem convert_concrete_example (hd : Nat) (tl : List Nat) (d0 d1 : List Int)
    (hh : hd ≠ 0) (h0 : d0.length = hd * shapeProd tl)
    (h1 : d1.length = hd * shapeProd tl) :
    StateConverter.convert ⟨[qProjTemplate]⟩
      [("blocks.0.attn.w_q", .tensor ⟨hd :: tl, d0⟩),
       ("blocks.1.attn.w_q", .tensor ⟨hd :: tl, d1⟩)] [(.layer, 2)] =
      .ok [("model.layers.0.self_attn.q_proj.weight", .tensor ⟨hd :: tl, d0⟩),
        ("model.layers.1.self_attn.q_proj.weight", .tensor ⟨hd :: tl, d1⟩)] := by
  have hget : StateConverter.get_mappings ⟨[qProjTemplate]⟩
      [("blocks.0.attn.w_q", Value.tensor ⟨hd :: tl, d0⟩),
       ("blocks.1.attn.w_q", Value.tensor ⟨hd :: tl, d1⟩)] [(.layer, 2)] =
      .ok [qProjMapping] := rfl
  have happ : applyMapping
      [("blocks.0.attn.w_q", Value.tensor ⟨hd :: tl, d0⟩),
       ("blocks.1.attn.w_q", Value.tensor ⟨hd :: tl, d1⟩)] qProjMapping [] =
      .ok [("model.layers.0.self_attn.q_proj.weight", .tensor ⟨hd :: tl, d0⟩),
        ("model.layers.1.self_attn.q_proj.weight", .tensor ⟨hd :: tl, d1⟩)] := by
    unfold applyMapping
    simp only [show qProjMapping.source_keys =
      ["blocks.0.attn.w_q", "blocks.1.attn.w_q"] from rfl]
    rw [show dictLook
      [("blocks.0.attn.w_q", Value.tensor ⟨hd :: tl, d0⟩),
       ("blocks.1.attn.w_q", Value.tensor ⟨hd :: tl, d1⟩)] "blocks.0.attn.w_q" =
      .ok (Value.tensor ⟨hd :: tl, d0⟩) from rfl]
    rw [exbind_ok]
    simp only [Value.isTensor, if_true]
    rw [show gatherValues
      [("blocks.0.attn.w_q", Value.tensor ⟨hd :: tl, d0⟩),
       ("blocks.1.attn.w_q", Value.tensor ⟨hd :: tl, d1⟩)]
      ["blocks.0.attn.w_q", "blocks.1.attn.w_q"] =
      .ok [Value.tensor ⟨hd :: tl, d0⟩, Value.tensor ⟨hd :: tl, d1⟩] from rfl]
    rw [exbind_ok]
    rw [show qProjMapping.source_concat_dim = 0 from rfl]
    rw [torchCat_pair_dim0 hd tl d0 d1 h0 h1]
    rw [exbind_ok]
    simp only [show qProjMapping.unflatten_dim = none from rfl,
      show qProjMapping.dims_permutation = none from rfl,
      show qProjMapping.flatten_dims = none from rfl]
    rw [exbind_ok, exbind_ok, exbind_ok]
    rw [show qProjMapping.dest_keys.length = 2 from rfl,
      show qProjMapping.dest_chunk_dim = 0 from rfl]
    rw [torchChunk_pair_dim0 hd tl d0 d1 hh h0 h1]
    rw [exbind_ok]
    rfl
  unfold StateConverter.convert StateConverter.convertSt
  simp only [hget]
  unfold convertLoop
  rw [happ]
  rfl

/-- C6 witness: the conversion at the concrete tensors `[1, 2]` and `[3, 4]`. -/
theorem convert_concrete_example_witness :
    StateConverter.convert ⟨[qProjTemplate]⟩
      [("blocks.0.attn.w_q", .tensor ⟨[2], [1, 2]⟩),
       ("blocks.1.attn.w_q", .tensor ⟨[2], [3, 4]⟩)] [(.layer, 2)] =
      .ok [("model.layers.0.self_attn.q_proj.weight", .tensor ⟨[2], [1, 2]⟩),
        ("model.layers.1.self_attn.q_proj.weight", .tensor ⟨[2], [3, 4]⟩)] :=
  convert_concrete_example 2 [] [1, 2] [3, 4] (by decide) (by decide) (by decide)

theorem sentinel_keysLoop (ts : List String) :
    ∀ ks, keysLoop [(.layer, none)] ts = some ks → ks = ts := by
  induction ts with
  | nil =>
    intro ks h
    simp [keysLoop] at h
    exact h
  | cons t' rest ih =>
    intro ks h
    unfold keysLoop at h
    cases hs : strHasSub t' TemplatePlaceholder.layer.str with
    | true =>
      simp only [show substLoop [(.layer, none)] t' t' = none from by
        unfold substLoop
        rw [if_pos hs]] at h
      simp at h
    | false =>
      simp only [show substLoop [(.layer, none)] t' t' = some t' from by
        unfold substLoop
        rw [if_neg (by simp [hs])]
        rfl] at h
      cases hk2 : keysLoop [(.layer, none)] rest with
      | none =>
        rw [hk2] at h
        cases h
      | some ks' =>
        rw [hk2] at h
        rw [ih ks' hk2] at h
        exact (Option.some.inj h).symm

/-- C5: a template whose `source_key_per_placeholder` is `LAYER`, resolved
against bounds with `LAYER = 4` and the expand-over-all-values sentinel for
`LAYER`, yields (whenever it yields a concrete mapping at all) exactly 4
source keys, obtained by substituting the indices 0 through 3 into the single
template string in ascending order — and the conversion pipeline gathers the
tensors to concatenate in exactly that key order. -/
theorem per_placeholder_expansion_ascending (t : StateMappingTemplate) (s : String)
    (pbs : PBounds) (m : StateMapping)
    (h1 : t.source_key_per_placeholder = some .layer)
    (h2 : t.source_template_keys = .single s)
    (h3 : alGet pbs .layer = some 4)
    (h4 : to_mapping t [(.layer, none)] pbs = .ok (some m)) :
    m.source_keys = (List.range 4).map
      (fun i => strReplace s TemplatePlaceholder.layer.str (toString i)) ∧
    ∀ sd : StateDict, gatherValues sd m.source_keys =
      m.source_keys.mapM (fun k => dictLook sd k) := by
  refine ⟨?_, fun sd => rfl⟩
  unfold to_mapping at h4
  by_cases hreq : ((requiredPlaceholders t).all fun p => (alGet pbs p).isSome) = true
  swap
  · rw [if_neg hreq] at h4
    simp at h4
  rw [if_pos hreq] at h4
  unfold to_mappingBody at h4
  rw [show perPlaceholderValues t.source_key_per_placeholder [(.layer, none)] pbs =
      .ok (some (List.range 4)) from by
    rw [h1]
    simp [perPlaceholderValues, alGet, h3]] at h4
  rw [exbind_ok] at h4
  rw [h1, h2] at h4
  simp only [templates_to_keys] at h4
  by_cases hc : strHasSub s TemplatePlaceholder.layer.str = true
  swap
  · rw [if_neg hc] at h4
    rw [exbind_err] at h4
    cases h4
  rw [if_pos hc] at h4
  rw [exbind_ok] at h4
  cases hk : keysLoop [(.layer, none)]
      ((List.range 4).map fun v => strReplace s TemplatePlaceholder.layer.str
        (toString v)) with
  | none =>
    rw [hk] at h4
    obtain ⟨dstExp, _, h4⟩ := bind_eq_ok h4
    obtain ⟨dest_keys, _, h4⟩ := bind_eq_ok h4
    cases dest_keys <;> simp at h4
  | some ks =>
    rw [hk] at h4
    obtain ⟨dstExp, _, h4⟩ := bind_eq_ok h4
    obtain ⟨dest_keys, _, h4⟩ := bind_eq_ok h4
    cases dest_keys with
    | none => simp at h4
    | some dks =>
      simp only [] at h4
      obtain ⟨unflat, _, h4⟩ := bind_eq_ok h4
      simp only [Except.ok.injEq, Option.some.injEq] at h4
      rw [← h4]
      exact sentinel_keysLoop _ ks hk

/-- C5 witness: the concrete per-layer template expands under `LAYER = 4` to
the four source keys `blocks.0..3.attn.w_q`, in ascending order. -/
theorem per_placeholder_expansion_witness :
    qProjMapping4.source_keys = (List.range 4).map
      (fun i => strReplace "blocks.[layer].attn.w_q" TemplatePlaceholder.layer.str
        (toString i)) ∧
    gatherValues [] qProjMapping4.source_keys =
      qProjMapping4.source_keys.mapM (fun k => dictLook [] k) :=
  have h := per_placeholder_expansion_ascending qProjTemplate "blocks.[layer].attn.w_q"
    [(.layer, 4)] qProjMapping4 rfl rfl rfl rfl
  ⟨h.1, h.2 []⟩

/-- C7 amended witness: removing `a` twice equals removing it once, the removed
key is gone after the first removal, and the double-claim conversion returns. -/
theorem double_claim_silent_witness :
    setDiff (setDiff ["a", "b"] ["a"]) ["a"] = setDiff ["a", "b"] ["a"] ∧
    "a" ∉ setDiff ["a", "b"] ["a"] ∧
    (∃ d, StateConverter.convert ⟨[tmplA, tmplB]⟩ sdOne [] = .ok d) :=
  ⟨double_claim_silent.1 ["a", "b"] ["a"],
   double_claim_silent.2.1 ["a", "b"] ["a"] "a" (List.mem_singleton.mpr rfl),
   double_claim_silent.2.2⟩
